import Mathlib

/-
  Shallow embedding of the barcode classification and reconciliation engine
  of the kohasayim repository (source: the main application component and its
  report/summary configuration).  Strings are modelled by Lean `String`,
  JavaScript `Set`/`Map` by lists with the corresponding lookup semantics,
  timestamps by natural numbers (milliseconds).
-/

namespace KohaSayim

/-! ## Definitions -/

/-- A classification warning kind, as in `WARNING_DEFINITIONS`; the
`wrongLibrary` warning carries the display name of the matched library. -/
inductive Warning where
  | invalidStructure
  | locationMismatch
  | notLoanable
  | notInCollection
  | onLoan
  | wrongLibrary (libraryName : String)
  | deleted
  | autoCompletedNotFound
  | duplicate
  | isbnDetected
deriving DecidableEq, Repr

/-- One row of the uploaded Koha catalog file.  `barkod` is optional because
the upload handler checks `hasOwnProperty('barkod')`; the location field is
optional because the classifier reads it as `itemData['materyalin_yeri_kodu'] || ''`. -/
structure KohaRow where
  barkod : Option String
  materyalinYeriKodu : Option String
  oduncVerilebilirlikKodu : String
  materyalStatusuKodu : String
  oduncDurumu : String
deriving DecidableEq, Repr

/-- JavaScript `String(x)` on a possibly-undefined value. -/
def jsStringOfOpt (o : Option String) : String := o.getD "undefined"

/-- JavaScript `Map.get` over an insertion-ordered association list: the most
recently set binding for a key wins. -/
def mapGet (m : List (String × KohaRow)) (k : String) : Option KohaRow :=
  (m.reverse.find? (fun p => p.1 == k)).map (fun p => p.2)

/-- JavaScript `String.prototype.trim`, modelled on the character list. -/
def jsTrim (s : String) : String :=
  ⟨((s.data.dropWhile Char.isWhitespace).reverse.dropWhile Char.isWhitespace).reverse⟩

/-- `replace(/[^0-9]/g, '')`: keep only decimal digit characters. -/
def stripNonDigits (s : String) : String := ⟨s.data.filter Char.isDigit⟩

/-- JavaScript `slice(0, n)` on a string. -/
def strTake (s : String) (n : Nat) : String := ⟨s.data.take n⟩

/-- JavaScript `padStart(n, c)`: left-pad to length `n` with `c`
(no change when the string is already at least that long). -/
def padStart (s : String) (n : Nat) (c : Char) : String :=
  ⟨List.replicate (n - s.data.length) c ++ s.data⟩

/-- JavaScript `startsWith`. -/
def strStartsWith (s p : String) : Bool := s.data.take p.data.length == p.data

/-- Numeric value of a decimal digit character (`parseInt` on a one-digit string). -/
def digitVal (c : Char) : Nat := c.toNat - 48

/-- `isIsbn` from the source: strip non-digits, require 13 digits starting with
978/979, then compare the weighted checksum with the 13th digit. -/
def isIsbn (barcode : String) : Bool :=
  let code := stripNonDigits barcode
  if code.length ≠ 13 then false
  else if !(strStartsWith code "978" || strStartsWith code "979") then false
  else
    let ds := code.data.map digitVal
    let sum := (List.range 12).foldl
      (fun acc i => acc + (if i % 2 = 0 then ds.getD i 0 * 1 else ds.getD i 0 * 3)) 0
    ((10 - sum % 10) % 10) == ds.getD 12 0

/-- `expectedPrefix = String(parseInt(selectedLibrary, 10) + 1000)`;
library codes are modelled as the numbers the source parses them into. -/
def prefixFor (libraryCode : Nat) : String := toString (libraryCode + 1000)

/-- The result of the normalization steps of `processBarcode`
(digit stripping, truncation, auto-completion). -/
structure NormResult where
  normalizedBarcode : String
  originalBarcode : String
  wasAutoCompleted : Bool
deriving DecidableEq, Repr

/-- The normalization steps of `processBarcode`: strip non-digits, truncate a
13+-digit string to its first 12 characters, and auto-complete a short digit
string by prepending the expected prefix after zero-padding the original
digits to `12 - expectedPrefix.length` characters. -/
def normalizeBarcode (selectedLibrary : Nat) (rawBarcode : String) : NormResult :=
  let originalBarcode := stripNonDigits rawBarcode
  let n0 := if originalBarcode.length ≥ 13 then strTake originalBarcode 12 else originalBarcode
  if n0.length < 12 ∧ n0.length > 0 then
    { normalizedBarcode :=
        prefixFor selectedLibrary ++
          padStart originalBarcode (12 - (prefixFor selectedLibrary).length) '0',
      originalBarcode := originalBarcode,
      wasAutoCompleted := true }
  else
    { normalizedBarcode := n0, originalBarcode := originalBarcode, wasAutoCompleted := false }

/-- A ScanEvent: one row of the session ledger (`scannedItems`). -/
structure ScanEvent where
  barcode : String
  isValid : Bool
  warnings : List Warning
  data : Option KohaRow
  timestamp : Nat
deriving DecidableEq, Repr

/-- The mutable session state: the ledger (`scannedItems`, most recent first)
and the seen set (`processedBarcodesRef.current`). -/
structure SessionState where
  scannedItems : List ScanEvent
  seen : List String
deriving DecidableEq, Repr

/-- The immutable classification context: the library directory
(`combinedLibraries`), the session scope, and the catalog index. -/
structure ScanContext where
  combinedLibraries : List (Nat × String)
  selectedLibrary : Option Nat
  selectedLocation : Option String
  kohaDataMap : List (String × KohaRow)
deriving Repr

/-- Outcome of one `processBarcode` call. -/
inductive Outcome where
  | ignored
  | isbn
  | error (warnings : List Warning)
  | success
deriving DecidableEq, Repr

/-- Reference reused by a duplicate event:
`scannedItems.find(item => item.barcode === n)?.data || kohaDataMap.get(n)`. -/
def dupEventData (kohaDataMap : List (String × KohaRow)) (scannedItems : List ScanEvent)
    (n : String) : Option KohaRow :=
  ((scannedItems.find? (fun it => it.barcode == n)).bind (fun it => it.data)).orElse
    (fun _ => mapGet kohaDataMap n)

/-- The wrong-library search of the structural check: the first library in the
directory whose prefix matches yields `wrongLibrary`, otherwise
`invalidStructure`. -/
def librarySearch (combinedLibraries : List (Nat × String)) (n : String) : Warning :=
  match combinedLibraries.find? (fun p => strStartsWith n (prefixFor p.1)) with
  | some p => Warning.wrongLibrary p.2
  | none => Warning.invalidStructure

/-- The catalog field checks (location, loan eligibility, status, on-loan) for
a found record, or the not-found warning (`autoCompletedNotFound` when the
identifier was auto-completed, else `deleted`). -/
def catalogWarnings (selectedLocation : Option String) (wasAutoCompleted : Bool)
    (itemData : Option KohaRow) : List Warning :=
  match itemData with
  | some item =>
      (match selectedLocation with
       | some loc =>
           if (item.materyalinYeriKodu.getD "") ≠ loc then [Warning.locationMismatch] else []
       | none => []) ++
      (if item.oduncVerilebilirlikKodu ≠ "0" ∧ item.oduncVerilebilirlikKodu ≠ "2" then
         [Warning.notLoanable] else []) ++
      (if item.materyalStatusuKodu ≠ "0" then [Warning.notInCollection] else []) ++
      (if item.oduncDurumu = "1" then [Warning.onLoan] else [])
  | none => [if wasAutoCompleted then Warning.autoCompletedNotFound else Warning.deleted]

/-- `processBarcode`: the classifier state machine.  Checks run in source
order: empty/no-library guard, ISBN check, normalization, duplicate check,
structural check, catalog lookup and field checks. -/
def processBarcode (ctx : ScanContext) (barcode : String) (ts : Nat) (st : SessionState) :
    Outcome × SessionState :=
  let rawBarcode := jsTrim barcode
  match ctx.selectedLibrary with
  | none => (Outcome.ignored, st)
  | some selectedLibrary =>
    if rawBarcode = "" then (Outcome.ignored, st)
    else if isIsbn rawBarcode then (Outcome.isbn, st)
    else
      let nr := normalizeBarcode selectedLibrary rawBarcode
      let n := nr.normalizedBarcode
      if st.seen.contains n then
        let scanResult : ScanEvent :=
          { barcode := n, isValid := false, warnings := [Warning.duplicate],
            data := dupEventData ctx.kohaDataMap st.scannedItems n, timestamp := ts }
        (Outcome.error [Warning.duplicate],
         { scannedItems := scanResult :: st.scannedItems, seen := st.seen })
      else
        let seen1 := n :: st.seen
        if n.length = 12 ∧ strStartsWith n (prefixFor selectedLibrary) = false then
          let finalWarning := librarySearch ctx.combinedLibraries n
          let scanResult : ScanEvent :=
            { barcode := nr.originalBarcode, isValid := false, warnings := [finalWarning],
              data := mapGet ctx.kohaDataMap n, timestamp := ts }
          (Outcome.error [finalWarning],
           { scannedItems := scanResult :: st.scannedItems, seen := seen1 })
        else
          let itemData := mapGet ctx.kohaDataMap n
          let warnings := catalogWarnings ctx.selectedLocation nr.wasAutoCompleted itemData
          let scanResult : ScanEvent :=
            { barcode := n, isValid := warnings.isEmpty, warnings := warnings,
              data := itemData, timestamp := ts }
          let st1 : SessionState := { scannedItems := scanResult :: st.scannedItems, seen := seen1 }
          if warnings.isEmpty then (Outcome.success, st1) else (Outcome.error warnings, st1)

/-- `handleDeleteItem`: remove the ledger entry with the given timestamp; when
it was the last entry with its barcode, also evict that barcode from the seen
set. -/
def handleDeleteItem (ts : Nat) (st : SessionState) : SessionState :=
  match st.scannedItems.find? (fun it => it.timestamp == ts) with
  | none => st
  | some itemToDelete =>
    let barcodeToDelete := itemToDelete.barcode
    let count := (st.scannedItems.filter (fun it => it.barcode == barcodeToDelete)).length
    let newItems := st.scannedItems.filter (fun it => it.timestamp ≠ ts)
    let newSeen :=
      if count = 1 then st.seen.filter (fun x => x ≠ barcodeToDelete) else st.seen
    { scannedItems := newItems, seen := newSeen }

/-- `handleClearAllScans`: empty the ledger and the seen set. -/
def handleClearAllScans (_st : SessionState) : SessionState :=
  { scannedItems := [], seen := [] }

/-- An event that is itself a duplicate warning
(`item.warnings.some(w => w.id === 'duplicate')`). -/
def isDuplicateEvent (e : ScanEvent) : Bool :=
  e.warnings.any (fun w => w == Warning.duplicate)

/-- The invariant as the spec states it: the seen set equals the set of
stored identifiers of the ledger events that are not duplicate warnings. -/
def SeenMatchesNonDuplicates (st : SessionState) : Prop :=
  ∀ x : String, x ∈ st.seen ↔
    ∃ e ∈ st.scannedItems, isDuplicateEvent e = false ∧ e.barcode = x

/-- The invariant the code maintains under the amended side conditions: the
seen set equals the set of stored identifiers of all ledger events,
duplicate-warned ones included. -/
def SeenMatchesLedger (st : SessionState) : Prop :=
  ∀ x : String, x ∈ st.seen ↔ ∃ e ∈ st.scannedItems, e.barcode = x

/-- Ledger timestamps are pairwise distinct. -/
def TimestampsNodup (st : SessionState) : Prop :=
  (st.scannedItems.map (fun e => e.timestamp)).Nodup

/-- Session states reachable from the empty session by classify calls (with
fresh timestamps), single-event deletions, and clear-all. -/
inductive Reachable (ctx : ScanContext) : SessionState → Prop where
  | init : Reachable ctx { scannedItems := [], seen := [] }
  | scan (raw : String) (ts : Nat) (st : SessionState)
      (hfresh : ∀ e ∈ st.scannedItems, e.timestamp ≠ ts)
      (hst : Reachable ctx st) : Reachable ctx (processBarcode ctx raw ts st).2
  | del (ts : Nat) (st : SessionState) (hst : Reachable ctx st) :
      Reachable ctx (handleDeleteItem ts st)
  | clear (st : SessionState) (hst : Reachable ctx st) :
      Reachable ctx (handleClearAllScans st)

/-- Reachability restricted to scans whose digit-stripped input has at most
12 digits, so that a structurally rejected scan stores its normalized
identifier rather than a longer untruncated digit string. -/
inductive ReachableBounded (ctx : ScanContext) : SessionState → Prop where
  | init : ReachableBounded ctx { scannedItems := [], seen := [] }
  | scan (raw : String) (ts : Nat) (st : SessionState)
      (hfresh : ∀ e ∈ st.scannedItems, e.timestamp ≠ ts)
      (hshort : (stripNonDigits (jsTrim raw)).length ≤ 12)
      (hst : ReachableBounded ctx st) : ReachableBounded ctx (processBarcode ctx raw ts st).2
  | del (ts : Nat) (st : SessionState) (hst : ReachableBounded ctx st) :
      ReachableBounded ctx (handleDeleteItem ts st)
  | clear (st : SessionState) (hst : ReachableBounded ctx st) :
      ReachableBounded ctx (handleClearAllScans st)

/-- Modelled from the spec text of the ISBN rule, for comparison with the
source function `isIsbn`: the digit-stripped form has exactly 13 digits,
starts with 978 or 979, and its 13th digit equals `(10 - S mod 10) mod 10`,
where `S` sums the first 12 digits weighted 1 at even and 3 at odd 0-based
positions. -/
def isIsbnSpec (barcode : String) : Prop :=
  let code := stripNonDigits barcode
  let ds := code.data.map digitVal
  code.length = 13 ∧
  (strStartsWith code "978" = true ∨ strStartsWith code "979" = true) ∧
  ds.getD 12 0 =
    (10 - ((∑ i ∈ Finset.range 12,
        (if i % 2 = 0 then ds.getD i 0 else 3 * ds.getD i 0)) % 10)) % 10

/-- Reported scan speed: a number, or the "∞" marker shown when the measured
duration is not positive. -/
inductive ScanSpeedValue where
  | num (value : ℤ)
  | unbounded
deriving DecidableEq, Repr

/-- Default used only to give `headD`/`getLastD` a total type; the source
reads `scannedItems[0]` and `scannedItems[length-1]` only when the ledger has
more than one entry. -/
def defaultEvent : ScanEvent :=
  { barcode := "", isValid := false, warnings := [], data := none, timestamp := 0 }

/-- The `scanSpeed` computation of `summaryData`: initialized to 0; when the
ledger has more than one event, `round(length / durationMinutes)` between the
newest (`scannedItems[0]`) and oldest (`scannedItems[length-1]`) timestamps,
or "∞" when the duration is not positive. -/
def scanSpeed (scannedItems : List ScanEvent) : ScanSpeedValue :=
  if 1 < scannedItems.length then
    let firstScanTime : ℤ := ((scannedItems.getLastD defaultEvent).timestamp : ℤ)
    let lastScanTime : ℤ := ((scannedItems.headD defaultEvent).timestamp : ℤ)
    let durationMinutes : ℚ := ((lastScanTime - firstScanTime : ℤ) : ℚ) / (1000 * 60)
    if 0 < durationMinutes then
      ScanSpeedValue.num (round ((scannedItems.length : ℚ) / durationMinutes))
    else ScanSpeedValue.unbounded
  else ScanSpeedValue.num 0

/-- Barcodes of the non-duplicate scan events
(`new Set(scannedItems.filter(i => !i.warnings.some(w => w.id === 'duplicate')).map(i => i.barcode))`). -/
def nonDuplicateScannedBarcodes (scannedItems : List ScanEvent) : List String :=
  (scannedItems.filter (fun i => !(isDuplicateEvent i))).map (fun i => i.barcode)

/-- The missing-items report dataset: active-collection catalog rows
(`materyal_statusu_kodu === '0'`) whose `String(barkod)` was not scanned by
any non-duplicate event. -/
def missingItemsReport (kohaData : List KohaRow) (scannedItems : List ScanEvent) :
    List KohaRow :=
  kohaData.filter (fun i => i.materyalStatusuKodu == "0" &&
    !((nonDuplicateScannedBarcodes scannedItems).contains (jsStringOfOpt i.barkod)))

/-- `activeScannedItems`: scan events whose resolved record is in the active
collection (`item.data && String(item.data['materyal_statusu_kodu']) === '0'`). -/
def activeScannedItems (scannedItems : List ScanEvent) : List ScanEvent :=
  scannedItems.filter (fun it =>
    match it.data with
    | some d => d.materyalStatusuKodu == "0"
    | none => false)

/-- One step of `new Map(pairs)` construction: setting an existing key keeps
its position and overwrites its value; a new key is appended. -/
def jsMapInsert (m : List (String × ScanEvent)) (k : String) (v : ScanEvent) :
    List (String × ScanEvent) :=
  if m.any (fun p => p.1 == k) then
    m.map (fun p => if p.1 == k then (k, v) else p)
  else m ++ [(k, v)]

/-- `uniqueActiveScannedItems = [...new Map(active.map(item => [item.barcode, item])).values()]`. -/
def uniqueActiveScannedItems (scannedItems : List ScanEvent) : List ScanEvent :=
  ((activeScannedItems scannedItems).foldl
    (fun m it => jsMapInsert m it.barcode it) []).map (fun p => p.2)

/-- The headline `valid` count of `summaryData`. -/
def summaryValid (scannedItems : List ScanEvent) : Nat :=
  ((uniqueActiveScannedItems scannedItems).filter (fun it => it.isValid)).length

/-- The headline `invalid` count of `summaryData`
(`uniqueActiveScannedItems.length - valid`). -/
def summaryInvalid (scannedItems : List ScanEvent) : Nat :=
  (uniqueActiveScannedItems scannedItems).length - summaryValid scannedItems

/-- The catalog part of the application state set by a successful upload. -/
structure CatalogState where
  kohaData : List KohaRow
  kohaDataMap : List (String × KohaRow)
deriving DecidableEq, Repr

/-- Error taxonomy of the catalog load. -/
inductive LoadError where
  | missingColumn
deriving DecidableEq, Repr

/-- The data path of `handleExcelUpload`: reject (the thrown
"barkod column not found" error) when there are no rows or the first row has
no `barkod` property, leaving the previous catalog untouched; otherwise
replace `kohaData` and `kohaDataMap` wholesale, keying the map by
`String(item.barkod)`. -/
def handleExcelUpload (json : List KohaRow) (st : CatalogState) :
    CatalogState × Option LoadError :=
  match json with
  | [] => (st, some LoadError.missingColumn)
  | r :: _ =>
    match r.barkod with
    | none => (st, some LoadError.missingColumn)
    | some _ =>
      ({ kohaData := json,
         kohaDataMap := json.map (fun it => (jsStringOfOpt it.barkod, it)) }, none)

/-! ### Concrete contexts and records used by witnesses and counterexamples -/

/-- A context with a single registered library (code 12, prefix 1012) and an
empty catalog. -/
def ctxEx : ScanContext :=
  { combinedLibraries := [(12, "Merkez")], selectedLibrary := some 12,
    selectedLocation := none, kohaDataMap := [] }

/-- A clean in-collection catalog row under the expected prefix. -/
def rowA : KohaRow :=
  { barkod := some "101200012345", materyalinYeriKodu := some "YB",
    oduncVerilebilirlikKodu := "0", materyalStatusuKodu := "0", oduncDurumu := "0" }

/-- A context whose catalog holds `rowA`. -/
def ctxC1 : ScanContext :=
  { combinedLibraries := [(12, "Merkez")], selectedLibrary := some 12,
    selectedLocation := none, kohaDataMap := [("101200012345", rowA)] }

/-- A catalog row belonging to a foreign library, with every field check
violated (wrong location, not loanable, not in collection, on loan). -/
def rowB : KohaRow :=
  { barkod := some "109900012345", materyalinYeriKodu := some "ZZ",
    oduncVerilebilirlikKodu := "9", materyalStatusuKodu := "1", oduncDurumu := "1" }

/-- A context with two registered libraries (12 and 99), a location scope,
and a catalog holding `rowB` under the foreign identifier. -/
def ctxB : ScanContext :=
  { combinedLibraries := [(12, "Merkez"), (99, "Sube")], selectedLibrary := some 12,
    selectedLocation := some "YB", kohaDataMap := [("109900012345", rowB)] }

/-- An active-collection catalog row that is never scanned. -/
def rowM : KohaRow :=
  { barkod := some "101200099999", materyalinYeriKodu := some "YB",
    oduncVerilebilirlikKodu := "0", materyalStatusuKodu := "0", oduncDurumu := "0" }

/-- A withdrawn (`materyal_statusu_kodu = 1`) catalog row that is never
scanned. -/
def rowW : KohaRow :=
  { barkod := some "101200088888", materyalinYeriKodu := some "YB",
    oduncVerilebilirlikKodu := "0", materyalStatusuKodu := "1", oduncDurumu := "0" }

/-- A valid scan event at time 0. -/
def evA : ScanEvent :=
  { barcode := "a", isValid := true, warnings := [], data := none, timestamp := 0 }

/-- A valid scan event two minutes later. -/
def evB : ScanEvent :=
  { barcode := "b", isValid := true, warnings := [], data := none, timestamp := 120000 }

/-- The session reached by scanning 101200012345 twice (second scan is a
duplicate) and then deleting the first event. -/
def stDeleteFirst : SessionState :=
  handleDeleteItem 0
    ((processBarcode ctxEx "101200012345" 1
      ((processBarcode ctxEx "101200012345" 0 { scannedItems := [], seen := [] }).2)).2)

/-- The session reached by scanning the 13-digit foreign-prefix barcode
9999000123456 once: the ledger stores the untruncated digit string while the
seen set holds its 12-character truncation. -/
def stTruncated : SessionState :=
  (processBarcode ctxEx "9999000123456" 0 { scannedItems := [], seen := [] }).2

/-! ## Supporting lemmas -/

lemma processBarcode_no_library (ctx : ScanContext) (barcode : String) (ts : Nat)
    (st : SessionState) (hlib : ctx.selectedLibrary = none) :
    processBarcode ctx barcode ts st = (Outcome.ignored, st) := by
  unfold processBarcode
  rw [hlib]

lemma processBarcode_empty (ctx : ScanContext) (barcode : String) (ts : Nat)
    (st : SessionState) (lib : Nat) (hlib : ctx.selectedLibrary = some lib)
    (hraw : jsTrim barcode = "") :
    processBarcode ctx barcode ts st = (Outcome.ignored, st) := by
  unfold processBarcode
  rw [hlib]
  simp [hraw]

lemma processBarcode_isbn (ctx : ScanContext) (barcode : String) (ts : Nat)
    (st : SessionState) (lib : Nat) (hlib : ctx.selectedLibrary = some lib)
    (hraw : jsTrim barcode ≠ "") (hisbn : isIsbn (jsTrim barcode) = true) :
    processBarcode ctx barcode ts st = (Outcome.isbn, st) := by
  unfold processBarcode
  rw [hlib]
  simp [hraw, hisbn]

lemma processBarcode_dup (ctx : ScanContext) (barcode : String) (ts : Nat)
    (st : SessionState) (lib : Nat) (hlib : ctx.selectedLibrary = some lib)
    (hraw : jsTrim barcode ≠ "") (hisbn : isIsbn (jsTrim barcode) = false)
    (hseen : st.seen.contains (normalizeBarcode lib (jsTrim barcode)).normalizedBarcode = true) :
    processBarcode ctx barcode ts st =
      (Outcome.error [Warning.duplicate],
       { scannedItems :=
           { barcode := (normalizeBarcode lib (jsTrim barcode)).normalizedBarcode,
             isValid := false, warnings := [Warning.duplicate],
             data := dupEventData ctx.kohaDataMap st.scannedItems
                       (normalizeBarcode lib (jsTrim barcode)).normalizedBarcode,
             timestamp := ts } :: st.scannedItems,
         seen := st.seen }) := by
  have hmem : (normalizeBarcode lib (jsTrim barcode)).normalizedBarcode ∈ st.seen := by
    simpa using hseen
  unfold processBarcode
  rw [hlib]
  simp [hraw, hisbn, hmem]

lemma processBarcode_structural (ctx : ScanContext) (barcode : String) (ts : Nat)
    (st : SessionState) (lib : Nat) (hlib : ctx.selectedLibrary = some lib)
    (hraw : jsTrim barcode ≠ "") (hisbn : isIsbn (jsTrim barcode) = false)
    (hseen : st.seen.contains (normalizeBarcode lib (jsTrim barcode)).normalizedBarcode = false)
    (hlen : (normalizeBarcode lib (jsTrim barcode)).normalizedBarcode.length = 12)
    (hpre : strStartsWith (normalizeBarcode lib (jsTrim barcode)).normalizedBarcode
              (prefixFor lib) = false) :
    processBarcode ctx barcode ts st =
      (Outcome.error [librarySearch ctx.combinedLibraries
          (normalizeBarcode lib (jsTrim barcode)).normalizedBarcode],
       { scannedItems :=
           { barcode := (normalizeBarcode lib (jsTrim barcode)).originalBarcode,
             isValid := false,
             warnings := [librarySearch ctx.combinedLibraries
               (normalizeBarcode lib (jsTrim barcode)).normalizedBarcode],
             data := mapGet ctx.kohaDataMap
               (normalizeBarcode lib (jsTrim barcode)).normalizedBarcode,
             timestamp := ts } :: st.scannedItems,
         seen := (normalizeBarcode lib (jsTrim barcode)).normalizedBarcode :: st.seen }) := by
  have hmem : (normalizeBarcode lib (jsTrim barcode)).normalizedBarcode ∉ st.seen := by
    simpa using hseen
  unfold processBarcode
  rw [hlib]
  simp [hraw, hisbn, hmem, hlen, hpre]

lemma processBarcode_catalog (ctx : ScanContext) (barcode : String) (ts : Nat)
    (st : SessionState) (lib : Nat) (hlib : ctx.selectedLibrary = some lib)
    (hraw : jsTrim barcode ≠ "") (hisbn : isIsbn (jsTrim barcode) = false)
    (hseen : st.seen.contains (normalizeBarcode lib (jsTrim barcode)).normalizedBarcode = false)
    (hns : ¬ ((normalizeBarcode lib (jsTrim barcode)).normalizedBarcode.length = 12 ∧
              strStartsWith (normalizeBarcode lib (jsTrim barcode)).normalizedBarcode
                (prefixFor lib) = false)) :
    processBarcode ctx barcode ts st =
      (let nr := normalizeBarcode lib (jsTrim barcode)
       let itemData := mapGet ctx.kohaDataMap nr.normalizedBarcode
       let warnings := catalogWarnings ctx.selectedLocation nr.wasAutoCompleted itemData
       let st1 : SessionState :=
         { scannedItems :=
             { barcode := nr.normalizedBarcode, isValid := warnings.isEmpty,
               warnings := warnings, data := itemData, timestamp := ts } :: st.scannedItems,
           seen := nr.normalizedBarcode :: st.seen }
       if warnings.isEmpty then (Outcome.success, st1) else (Outcome.error warnings, st1)) := by
  have hmem : (normalizeBarcode lib (jsTrim barcode)).normalizedBarcode ∉ st.seen := by
    simpa using hseen
  unfold processBarcode
  rw [hlib]
  simp [hraw, hisbn, hmem, hns]

lemma processBarcode_catalog_state (ctx : ScanContext) (barcode : String) (ts : Nat)
    (st : SessionState) (lib : Nat) (hlib : ctx.selectedLibrary = some lib)
    (hraw : jsTrim barcode ≠ "") (hisbn : isIsbn (jsTrim barcode) = false)
    (hseen : st.seen.contains (normalizeBarcode lib (jsTrim barcode)).normalizedBarcode = false)
    (hns : ¬ ((normalizeBarcode lib (jsTrim barcode)).normalizedBarcode.length = 12 ∧
              strStartsWith (normalizeBarcode lib (jsTrim barcode)).normalizedBarcode
                (prefixFor lib) = false)) :
    (processBarcode ctx barcode ts st).2 =
      { scannedItems :=
          { barcode := (normalizeBarcode lib (jsTrim barcode)).normalizedBarcode,
            isValid := (catalogWarnings ctx.selectedLocation
              (normalizeBarcode lib (jsTrim barcode)).wasAutoCompleted
              (mapGet ctx.kohaDataMap
                (normalizeBarcode lib (jsTrim barcode)).normalizedBarcode)).isEmpty,
            warnings := catalogWarnings ctx.selectedLocation
              (normalizeBarcode lib (jsTrim barcode)).wasAutoCompleted
              (mapGet ctx.kohaDataMap
                (normalizeBarcode lib (jsTrim barcode)).normalizedBarcode),
            data := mapGet ctx.kohaDataMap
              (normalizeBarcode lib (jsTrim barcode)).normalizedBarcode,
            timestamp := ts } :: st.scannedItems,
        seen := (normalizeBarcode lib (jsTrim barcode)).normalizedBarcode :: st.seen } := by
  rw [processBarcode_catalog ctx barcode ts st lib hlib hraw hisbn hseen hns]
  dsimp only
  split <;> rfl

lemma normalizeBarcode_originalBarcode (lib : Nat) (raw : String) :
    (normalizeBarcode lib raw).originalBarcode = stripNonDigits raw := by
  unfold normalizeBarcode
  dsimp only
  split <;> split <;> rfl

lemma strStartsWith_append (p s : String) : strStartsWith (p ++ s) p = true := by
  have h : (p ++ s).data = p.data ++ s.data := by cases p; cases s; rfl
  unfold strStartsWith
  rw [h, List.take_left]
  exact beq_self_eq_true _

/-- When the digit-stripped input has at most 12 digits, the normalized
identifier is either the digit string itself or an auto-completed identifier
that starts with the expected prefix. -/
lemma normalizeBarcode_short (lib : Nat) (raw : String)
    (hshort : (stripNonDigits raw).length ≤ 12) :
    (normalizeBarcode lib raw).normalizedBarcode = stripNonDigits raw ∨
    strStartsWith (normalizeBarcode lib raw).normalizedBarcode (prefixFor lib) = true := by
  unfold normalizeBarcode
  dsimp only
  have hn0 : (if (stripNonDigits raw).length ≥ 13 then strTake (stripNonDigits raw) 12
      else stripNonDigits raw) = stripNonDigits raw := by
    rw [if_neg]; omega
  rw [hn0]
  split
  · right; exact strStartsWith_append _ _
  · left; rfl

lemma processBarcode_shape (ctx : ScanContext) (barcode : String) (ts : Nat)
    (st : SessionState) :
    (processBarcode ctx barcode ts st).2 = st ∨
    ∃ ev : ScanEvent, ev.timestamp = ts ∧
      (processBarcode ctx barcode ts st).2.scannedItems = ev :: st.scannedItems := by
  cases hsel : ctx.selectedLibrary with
  | none => rw [processBarcode_no_library ctx barcode ts st hsel]; left; rfl
  | some lib =>
    by_cases hraw : jsTrim barcode = ""
    · rw [processBarcode_empty ctx barcode ts st lib hsel hraw]; left; rfl
    by_cases hisbn : isIsbn (jsTrim barcode) = true
    · rw [processBarcode_isbn ctx barcode ts st lib hsel hraw hisbn]; left; rfl
    have hisbn' : isIsbn (jsTrim barcode) = false := by simpa using hisbn
    by_cases hseen :
        st.seen.contains (normalizeBarcode lib (jsTrim barcode)).normalizedBarcode = true
    · rw [processBarcode_dup ctx barcode ts st lib hsel hraw hisbn' hseen]
      right; exact ⟨_, rfl, rfl⟩
    have hseen' :
        st.seen.contains (normalizeBarcode lib (jsTrim barcode)).normalizedBarcode = false := by
      simpa using hseen
    by_cases hstr : ((normalizeBarcode lib (jsTrim barcode)).normalizedBarcode.length = 12 ∧
        strStartsWith (normalizeBarcode lib (jsTrim barcode)).normalizedBarcode
          (prefixFor lib) = false)
    · rw [processBarcode_structural ctx barcode ts st lib hsel hraw hisbn' hseen'
        hstr.1 hstr.2]
      right; exact ⟨_, rfl, rfl⟩
    · rw [processBarcode_catalog_state ctx barcode ts st lib hsel hraw hisbn' hseen' hstr]
      right; exact ⟨_, rfl, rfl⟩

lemma processBarcode_timestamps (ctx : ScanContext) (barcode : String) (ts : Nat)
    (st : SessionState) (hfresh : ∀ e ∈ st.scannedItems, e.timestamp ≠ ts)
    (hT : TimestampsNodup st) : TimestampsNodup (processBarcode ctx barcode ts st).2 := by
  rcases processBarcode_shape ctx barcode ts st with heq | ⟨ev, hts, hitems⟩
  · rw [heq]; exact hT
  · unfold TimestampsNodup
    rw [hitems]
    simp only [List.map_cons]
    refine List.nodup_cons.mpr ⟨?_, hT⟩
    rw [hts]
    intro hmem
    obtain ⟨e, he, hets⟩ := List.mem_map.mp hmem
    exact hfresh e he hets

lemma processBarcode_seenLedger (ctx : ScanContext) (barcode : String) (ts : Nat)
    (st : SessionState) (hshort : (stripNonDigits (jsTrim barcode)).length ≤ 12)
    (hI : SeenMatchesLedger st) :
    SeenMatchesLedger (processBarcode ctx barcode ts st).2 := by
  cases hsel : ctx.selectedLibrary with
  | none => rw [processBarcode_no_library ctx barcode ts st hsel]; exact hI
  | some lib =>
    by_cases hraw : jsTrim barcode = ""
    · rw [processBarcode_empty ctx barcode ts st lib hsel hraw]; exact hI
    by_cases hisbn : isIsbn (jsTrim barcode) = true
    · rw [processBarcode_isbn ctx barcode ts st lib hsel hraw hisbn]; exact hI
    have hisbn' : isIsbn (jsTrim barcode) = false := by simpa using hisbn
    by_cases hseen :
        st.seen.contains (normalizeBarcode lib (jsTrim barcode)).normalizedBarcode = true
    · rw [processBarcode_dup ctx barcode ts st lib hsel hraw hisbn' hseen]
      have hmem : (normalizeBarcode lib (jsTrim barcode)).normalizedBarcode ∈ st.seen := by
        simpa using hseen
      intro x
      constructor
      · intro hx
        obtain ⟨e, he, heb⟩ := (hI x).mp hx
        exact ⟨e, List.mem_cons_of_mem _ he, heb⟩
      · rintro ⟨e, he, heb⟩
        rcases List.mem_cons.mp he with h | h
        · subst h
          simp only at heb
          exact heb ▸ hmem
        · exact (hI x).mpr ⟨e, h, heb⟩
    have hseen' :
        st.seen.contains (normalizeBarcode lib (jsTrim barcode)).normalizedBarcode = false := by
      simpa using hseen
    by_cases hstr : ((normalizeBarcode lib (jsTrim barcode)).normalizedBarcode.length = 12 ∧
        strStartsWith (normalizeBarcode lib (jsTrim barcode)).normalizedBarcode
          (prefixFor lib) = false)
    · rw [processBarcode_structural ctx barcode ts st lib hsel hraw hisbn' hseen'
        hstr.1 hstr.2]
      have horig : (normalizeBarcode lib (jsTrim barcode)).originalBarcode =
          (normalizeBarcode lib (jsTrim barcode)).normalizedBarcode := by
        rcases normalizeBarcode_short lib (jsTrim barcode) hshort with h | h
        · rw [normalizeBarcode_originalBarcode, h]
        · rw [hstr.2] at h
          exact absurd h (by simp)
      intro x
      constructor
      · intro hx
        rcases List.mem_cons.mp hx with h | h
        · refine ⟨_, List.mem_cons_self _ _, ?_⟩
          simp only [horig]
          exact h.symm
        · obtain ⟨e, he, heb⟩ := (hI x).mp h
          exact ⟨e, List.mem_cons_of_mem _ he, heb⟩
      · rintro ⟨e, he, heb⟩
        rcases List.mem_cons.mp he with h | h
        · subst h
          simp only [horig] at heb
          exact heb ▸ List.mem_cons_self _ _
        · exact List.mem_cons_of_mem _ ((hI x).mpr ⟨e, h, heb⟩)
    · rw [processBarcode_catalog_state ctx barcode ts st lib hsel hraw hisbn' hseen' hstr]
      intro x
      constructor
      · intro hx
        rcases List.mem_cons.mp hx with h | h
        · exact ⟨_, List.mem_cons_self _ _, h.symm⟩
        · obtain ⟨e, he, heb⟩ := (hI x).mp h
          exact ⟨e, List.mem_cons_of_mem _ he, heb⟩
      · rintro ⟨e, he, heb⟩
        rcases List.mem_cons.mp he with h | h
        · subst h
          simp only at heb
          exact heb ▸ List.mem_cons_self _ _
        · exact List.mem_cons_of_mem _ ((hI x).mpr ⟨e, h, heb⟩)

lemma length_le_one_of_forall_eq {l : List Nat} {c : Nat} (hn : l.Nodup)
    (hc : ∀ x ∈ l, x = c) : l.length ≤ 1 := by
  rcases l with _ | ⟨a, _ | ⟨b, t⟩⟩
  · simp
  · simp
  · exfalso
    have ha : a = c := hc a (by simp)
    have hb : b = c := hc b (by simp)
    have hne : a ≠ b := by
      have h := List.nodup_cons.mp hn
      intro h'
      exact h.1 (h' ▸ List.mem_cons_self b t)
    exact hne (ha.trans hb.symm)

lemma handleDeleteItem_timestamps (ts : Nat) (st : SessionState) (hT : TimestampsNodup st) :
    TimestampsNodup (handleDeleteItem ts st) := by
  unfold handleDeleteItem
  cases hfind : st.scannedItems.find? (fun it => it.timestamp == ts) with
  | none => exact hT
  | some itd =>
    dsimp only
    unfold TimestampsNodup at hT ⊢
    exact hT.sublist ((List.filter_sublist _).map _)

lemma handleDeleteItem_seenLedger (ts : Nat) (st : SessionState)
    (hI : SeenMatchesLedger st) (hT : TimestampsNodup st) :
    SeenMatchesLedger (handleDeleteItem ts st) := by
  unfold handleDeleteItem
  cases hfind : st.scannedItems.find? (fun it => it.timestamp == ts) with
  | none => exact hI
  | some itd =>
    dsimp only
    have hmem : itd ∈ st.scannedItems := List.mem_of_find?_eq_some hfind
    have hts : itd.timestamp = ts := by
      have h := List.find?_some hfind
      simpa using h
    have huniq : ∀ e ∈ st.scannedItems, e.timestamp = ts → e = itd := by
      intro e he hets
      exact List.inj_on_of_nodup_map hT he hmem (by rw [hets, hts])
    by_cases hcount :
        (st.scannedItems.filter (fun it => it.barcode == itd.barcode)).length = 1
    · rw [if_pos hcount]
      intro x
      constructor
      · intro hx
        rw [List.mem_filter] at hx
        obtain ⟨hxs, hxb⟩ := hx
        have hxb' : x ≠ itd.barcode := by simpa using hxb
        obtain ⟨e, he, heb⟩ := (hI x).mp hxs
        refine ⟨e, List.mem_filter.mpr ⟨he, ?_⟩, heb⟩
        simp only [decide_eq_true_eq]
        intro hets
        apply hxb'
        rw [← heb, huniq e he hets]
      · rintro ⟨e, he, heb⟩
        rw [List.mem_filter] at he
        obtain ⟨hes, hets⟩ := he
        have hets' : e.timestamp ≠ ts := by simpa using hets
        refine List.mem_filter.mpr ⟨(hI x).mpr ⟨e, hes, heb⟩, ?_⟩
        simp only [decide_eq_true_eq]
        intro hxb
        obtain ⟨a, ha⟩ := List.length_eq_one.mp hcount
        have hmemf : itd ∈ st.scannedItems.filter (fun it => it.barcode == itd.barcode) :=
          List.mem_filter.mpr ⟨hmem, by simp⟩
        have hef : e ∈ st.scannedItems.filter (fun it => it.barcode == itd.barcode) :=
          List.mem_filter.mpr ⟨hes, by simp [heb, hxb]⟩
        rw [ha] at hmemf hef
        have h1 : itd = a := by simpa using hmemf
        have h2 : e = a := by simpa using hef
        exact hets' (by rw [h2, ← h1, hts])
    · rw [if_neg hcount]
      have hpos : 0 < (st.scannedItems.filter (fun it => it.barcode == itd.barcode)).length :=
        List.length_pos_of_mem (List.mem_filter.mpr ⟨hmem, by simp⟩)
      have h2 : 2 ≤ (st.scannedItems.filter (fun it => it.barcode == itd.barcode)).length := by
        omega
      set F := st.scannedItems.filter (fun it => it.barcode == itd.barcode) with hF
      have hFsub : List.Sublist F st.scannedItems := List.filter_sublist _
      have hGnodup :
          ((F.filter (fun it => it.timestamp == ts)).map (fun e => e.timestamp)).Nodup :=
        hT.sublist (((List.filter_sublist F).trans hFsub).map _)
      have hGle :
          ((F.filter (fun it => it.timestamp == ts)).map (fun e => e.timestamp)).length ≤ 1 := by
        refine length_le_one_of_forall_eq (c := ts) hGnodup ?_
        intro x hx
        obtain ⟨e, he, hex⟩ := List.mem_map.mp hx
        rw [← hex]
        have h := (List.mem_filter.mp he).2
        simpa using h
      have hsplit := List.length_eq_length_filter_add (l := F)
        (fun it => it.timestamp == ts)
      have hH : 0 < (F.filter (fun it => !(it.timestamp == ts))).length := by
        rw [List.length_map] at hGle
        omega
      obtain ⟨e', he'⟩ := List.exists_mem_of_length_pos hH
      have he'F : e' ∈ F := (List.mem_filter.mp he').1
      have he'ts : e'.timestamp ≠ ts := by
        have h := (List.mem_filter.mp he').2
        simpa using h
      have he's : e' ∈ st.scannedItems := (List.mem_filter.mp he'F).1
      have he'b : e'.barcode = itd.barcode := by
        have h := (List.mem_filter.mp he'F).2
        simpa using h
      intro x
      constructor
      · intro hxs
        obtain ⟨e, he, heb⟩ := (hI x).mp hxs
        by_cases hets : e.timestamp = ts
        · have heq : e = itd := huniq e he hets
          refine ⟨e', List.mem_filter.mpr ⟨he's, by simpa using he'ts⟩, ?_⟩
          rw [he'b, ← heq, heb]
        · exact ⟨e, List.mem_filter.mpr ⟨he, by simpa using hets⟩, heb⟩
      · rintro ⟨e, he, heb⟩
        exact (hI x).mpr ⟨e, (List.mem_filter.mp he).1, heb⟩

lemma reachableBounded_invariant (ctx : ScanContext) (st : SessionState)
    (h : ReachableBounded ctx st) : SeenMatchesLedger st ∧ TimestampsNodup st := by
  induction h with
  | init =>
      constructor
      · intro x; simp
      · simp [TimestampsNodup]
  | scan raw ts st hfresh hshort hst ih =>
      exact ⟨processBarcode_seenLedger _ _ _ _ hshort ih.1,
             processBarcode_timestamps _ _ _ _ hfresh ih.2⟩
  | del ts st hst ih =>
      exact ⟨handleDeleteItem_seenLedger _ _ ih.1 ih.2, handleDeleteItem_timestamps _ _ ih.2⟩
  | clear st hst ih =>
      constructor
      · intro x; simp [handleClearAllScans]
      · simp [TimestampsNodup, handleClearAllScans]

lemma isbn_weighted_sum (ds : List Nat) :
    (List.range 12).foldl
      (fun acc i => acc + (if i % 2 = 0 then ds.getD i 0 * 1 else ds.getD i 0 * 3)) 0 =
    ∑ i ∈ Finset.range 12, (if i % 2 = 0 then ds.getD i 0 else 3 * ds.getD i 0) := by
  have h : List.range 12 = [0, 1, 2, 3, 4, 5, 6, 7, 8, 9, 10, 11] := rfl
  rw [h]
  simp [Finset.sum_range_succ]
  ring

lemma jsMapInsert_fst_nodup (m : List (String × ScanEvent)) (k : String) (v : ScanEvent)
    (hm : (m.map Prod.fst).Nodup) : ((jsMapInsert m k v).map Prod.fst).Nodup := by
  unfold jsMapInsert
  split
  · have h : (m.map (fun p => if p.1 == k then (k, v) else p)).map Prod.fst =
        m.map Prod.fst := by
      rw [List.map_map]
      refine List.map_congr_left ?_
      intro p _
      by_cases hpk : p.1 = k
      · simp [hpk]
      · simp [hpk]
    rw [h]
    exact hm
  · rename_i hany
    rw [List.map_append]
    simp only [List.map_cons, List.map_nil]
    refine hm.append (List.nodup_singleton _) ?_
    intro a ha hb
    simp only [List.mem_singleton] at hb
    subst hb
    obtain ⟨p, hp, hpk⟩ := List.mem_map.mp ha
    exact hany (List.any_eq_true.mpr ⟨p, hp, by simp [hpk]⟩)

lemma jsMapFold_fst_nodup (l : List ScanEvent) (m : List (String × ScanEvent))
    (hm : (m.map Prod.fst).Nodup) :
    ((l.foldl (fun acc it => jsMapInsert acc it.barcode it) m).map Prod.fst).Nodup := by
  induction l generalizing m with
  | nil => exact hm
  | cons a t ih => exact ih _ (jsMapInsert_fst_nodup m a.barcode a hm)

lemma jsMapInsert_snd_subset (m : List (String × ScanEvent)) (k : String) (v : ScanEvent) :
    ∀ e ∈ (jsMapInsert m k v).map Prod.snd, e ∈ m.map Prod.snd ∨ e = v := by
  intro e he
  unfold jsMapInsert at he
  split at he
  · rw [List.map_map] at he
    obtain ⟨q, hq, hqe⟩ := List.mem_map.mp he
    by_cases hqk : q.1 = k
    · right
      simp only [Function.comp_apply, if_pos (show (q.1 == k) = true by simp [hqk])] at hqe
      exact hqe.symm
    · left
      simp only [Function.comp_apply, if_neg (show ¬ (q.1 == k) = true by simp [hqk])] at hqe
      exact List.mem_map.mpr ⟨q, hq, hqe⟩
  · rw [List.map_append] at he
    rcases List.mem_append.mp he with h | h
    · left; exact h
    · right
      simp only [List.map_cons, List.map_nil, List.mem_singleton] at h
      exact h

lemma jsMapFold_snd_subset (l : List ScanEvent) (m : List (String × ScanEvent)) :
    ∀ e ∈ (l.foldl (fun acc it => jsMapInsert acc it.barcode it) m).map Prod.snd,
      e ∈ m.map Prod.snd ∨ e ∈ l := by
  induction l generalizing m with
  | nil =>
      intro e he
      left; exact he
  | cons a t ih =>
      intro e he
      rcases ih _ e he with h | h
      · rcases jsMapInsert_snd_subset m a.barcode a e h with h' | h'
        · left; exact h'
        · right; simp [h']
      · right; exact List.mem_cons_of_mem _ h

lemma jsMapFold_key_eq (l : List ScanEvent) (m : List (String × ScanEvent))
    (hm : ∀ p ∈ m, p.1 = p.2.barcode) :
    ∀ p ∈ l.foldl (fun acc it => jsMapInsert acc it.barcode it) m, p.1 = p.2.barcode := by
  induction l generalizing m with
  | nil => exact hm
  | cons a t ih =>
      refine ih _ ?_
      intro p hp
      simp only [jsMapInsert] at hp
      split at hp
      · obtain ⟨q, hq, hqp⟩ := List.mem_map.mp hp
        by_cases hqk : q.1 = a.barcode
        · rw [if_pos (by simp [hqk])] at hqp
          rw [← hqp]
        · rw [if_neg (by simp [hqk])] at hqp
          rw [← hqp]
          exact hm q hq
      · rcases List.mem_append.mp hp with h | h
        · exact hm p h
        · simp only [List.mem_singleton] at h
          rw [h]

lemma uniqueActive_barcodes_nodup (items : List ScanEvent) :
    ((uniqueActiveScannedItems items).map (fun e => e.barcode)).Nodup := by
  unfold uniqueActiveScannedItems
  rw [List.map_map]
  have hkey : ∀ p ∈ (activeScannedItems items).foldl
      (fun m it => jsMapInsert m it.barcode it) [], p.1 = p.2.barcode :=
    jsMapFold_key_eq _ [] (by intro p hp; simp at hp)
  have h : ((activeScannedItems items).foldl
        (fun m it => jsMapInsert m it.barcode it) []).map ((fun e => e.barcode) ∘ Prod.snd) =
      ((activeScannedItems items).foldl
        (fun m it => jsMapInsert m it.barcode it) []).map Prod.fst := by
    refine List.map_congr_left ?_
    intro p hp
    exact (hkey p hp).symm
  rw [h]
  exact jsMapFold_fst_nodup _ [] (by simp)

lemma uniqueActive_active (items : List ScanEvent) :
    ∀ e ∈ uniqueActiveScannedItems items,
      ∃ d, e.data = some d ∧ d.materyalStatusuKodu = "0" := by
  intro e he
  unfold uniqueActiveScannedItems at he
  rcases jsMapFold_snd_subset _ [] e he with h | h
  · simp at h
  · have h2 := (List.mem_filter.mp h).2
    cases hd : e.data with
    | none => rw [hd] at h2; simp at h2
    | some d =>
        rw [hd] at h2
        refine ⟨d, rfl, ?_⟩
        simpa using h2

lemma summary_counts_sum (items : List ScanEvent) :
    summaryValid items + summaryInvalid items = (uniqueActiveScannedItems items).length := by
  unfold summaryInvalid
  have h : summaryValid items ≤ (uniqueActiveScannedItems items).length :=
    List.length_filter_le _ _
  omega

lemma isIsbn_eq_false_of_length (s : String) (h : (stripNonDigits s).length ≠ 13) :
    isIsbn s = false := by
  unfold isIsbn
  dsimp only
  rw [if_pos h]

lemma normalizeBarcode_empty_digits (lib : Nat) (raw : String)
    (h : stripNonDigits raw = "") :
    normalizeBarcode lib raw =
      { normalizedBarcode := "", originalBarcode := "", wasAutoCompleted := false } := by
  unfold normalizeBarcode
  dsimp only
  rw [h]
  rw [if_neg (by decide)]
  rw [if_neg (by decide)]

lemma duration_pos_iff (a b : ℤ) :
    ((0:ℚ) < ((a - b : ℤ) : ℚ) / (1000 * 60)) ↔ b < a := by
  constructor
  · intro h
    by_contra hx
    push_neg at hx
    have hab : ((a - b : ℤ) : ℚ) ≤ 0 := by
      push_cast
      have hba : (a : ℚ) ≤ b := by exact_mod_cast hx
      linarith
    have hle := div_nonpos_of_nonpos_of_nonneg hab (by norm_num : (0:ℚ) ≤ 1000 * 60)
    linarith
  · intro h
    apply div_pos
    · push_cast
      have hba : (b : ℚ) < a := by exact_mod_cast h
      linarith
    · norm_num

/-! ## Claims -/

/-- Claim C1: for every session state and every input whose normalized
identifier is already in the ledger's seen set, classification appends exactly
one ScanEvent whose warnings list is exactly `[duplicate]` with
`isValid = false`, reuses the first existing ledger entry's reference (falling
back to a catalog lookup), leaves the seen set unchanged, and runs no further
checks. -/
theorem claim1_duplicate_short_circuit (ctx : ScanContext) (lib : Nat) (barcode : String)
    (ts : Nat) (st : SessionState) (hlib : ctx.selectedLibrary = some lib)
    (hraw : jsTrim barcode ≠ "") (hisbn : isIsbn (jsTrim barcode) = false)
    (hseen : st.seen.contains (normalizeBarcode lib (jsTrim barcode)).normalizedBarcode = true) :
    processBarcode ctx barcode ts st =
      (Outcome.error [Warning.duplicate],
       { scannedItems :=
           { barcode := (normalizeBarcode lib (jsTrim barcode)).normalizedBarcode,
             isValid := false, warnings := [Warning.duplicate],
             data := dupEventData ctx.kohaDataMap st.scannedItems
                       (normalizeBarcode lib (jsTrim barcode)).normalizedBarcode,
             timestamp := ts } :: st.scannedItems,
         seen := st.seen }) :=
  processBarcode_dup ctx barcode ts st lib hlib hraw hisbn hseen

/-- Witness for C1: scanning 101200012345 a second time in a session that
already saw it (with a catalog record present) yields exactly one
duplicate-warned event reusing the first ledger entry's reference, and the
seen set is unchanged. -/
theorem claim1_witness :
    processBarcode ctxC1 "101200012345" 1
        { scannedItems := [{ barcode := "101200012345", isValid := true, warnings := [],
                             data := some rowA, timestamp := 0 }],
          seen := ["101200012345"] } =
      (Outcome.error [Warning.duplicate],
       { scannedItems :=
           [{ barcode := "101200012345", isValid := false, warnings := [Warning.duplicate],
              data := some rowA, timestamp := 1 },
            { barcode := "101200012345", isValid := true, warnings := [],
              data := some rowA, timestamp := 0 }],
         seen := ["101200012345"] }) := by
  have h := claim1_duplicate_short_circuit ctxC1 12 "101200012345" 1
    { scannedItems := [{ barcode := "101200012345", isValid := true, warnings := [],
                         data := some rowA, timestamp := 0 }],
      seen := ["101200012345"] } rfl (by decide) (by decide) (by decide)
  exact h.trans (by decide)

/-- Claim C2: for a fresh normalized identifier of exactly 12 characters that
does not start with the selected library's expected prefix, classification
emits exactly one warning — `wrongLibrary` naming the first registered library
whose prefix `str(int(code)+1000)` matches, otherwise `invalidStructure` —
with `isValid = false`, and terminates without evaluating any catalog field
check, whatever the catalog contains. -/
theorem claim2_structural_rejection (ctx : ScanContext) (lib : Nat) (barcode : String)
    (ts : Nat) (st : SessionState) (hlib : ctx.selectedLibrary = some lib)
    (hraw : jsTrim barcode ≠ "") (hisbn : isIsbn (jsTrim barcode) = false)
    (hseen : st.seen.contains (normalizeBarcode lib (jsTrim barcode)).normalizedBarcode = false)
    (hlen : (normalizeBarcode lib (jsTrim barcode)).normalizedBarcode.length = 12)
    (hpre : strStartsWith (normalizeBarcode lib (jsTrim barcode)).normalizedBarcode
              (prefixFor lib) = false) :
    processBarcode ctx barcode ts st =
      (Outcome.error [librarySearch ctx.combinedLibraries
          (normalizeBarcode lib (jsTrim barcode)).normalizedBarcode],
       { scannedItems :=
           { barcode := (normalizeBarcode lib (jsTrim barcode)).originalBarcode,
             isValid := false,
             warnings := [librarySearch ctx.combinedLibraries
               (normalizeBarcode lib (jsTrim barcode)).normalizedBarcode],
             data := mapGet ctx.kohaDataMap
               (normalizeBarcode lib (jsTrim barcode)).normalizedBarcode,
             timestamp := ts } :: st.scannedItems,
         seen := (normalizeBarcode lib (jsTrim barcode)).normalizedBarcode :: st.seen }) :=
  processBarcode_structural ctx barcode ts st lib hlib hraw hisbn hseen hlen hpre

/-- Witness for C2: a foreign-prefix identifier whose catalog record violates
every field check still gets exactly the single `wrongLibrary` warning naming
the matched library. -/
theorem claim2_witness :
    processBarcode ctxB "109900012345" 0 { scannedItems := [], seen := [] } =
      (Outcome.error [Warning.wrongLibrary "Sube"],
       { scannedItems :=
           [{ barcode := "109900012345", isValid := false,
              warnings := [Warning.wrongLibrary "Sube"], data := some rowB, timestamp := 0 }],
         seen := ["109900012345"] }) := by
  have h := claim2_structural_rejection ctxB 12 "109900012345" 0
    { scannedItems := [], seen := [] }
    rfl (by decide) (by decide) (by decide) (by decide) (by decide)
  exact h.trans (by decide)

/-- Counterexample to C3 as stated.  First part: scan 101200012345 twice, then
delete the first event; the identifier stays in the seen set although the only
remaining ledger event is duplicate-warned (deletion counts duplicate events
when deciding eviction).  Second part: scan the 13-digit foreign barcode
9999000123456 once; the seen set holds the truncated identifier 999900012345
while the ledger event stores the untruncated digit string, so the claimed
equality already fails with no deletion involved. -/
theorem claim3_counterexample :
    (Reachable ctxEx stDeleteFirst ∧ ¬ SeenMatchesNonDuplicates stDeleteFirst) ∧
    (Reachable ctxEx stTruncated ∧ ¬ SeenMatchesNonDuplicates stTruncated) := by
  refine ⟨⟨?_, ?_⟩, ⟨?_, ?_⟩⟩
  · exact Reachable.del 0 _
      (Reachable.scan "101200012345" 1 _ (by decide)
        (Reachable.scan "101200012345" 0 _ (by simp) Reachable.init))
  · intro h
    have hx := (h "101200012345").mp (by decide)
    obtain ⟨e, he, hdup, hb⟩ := hx
    have hitems : stDeleteFirst.scannedItems =
        [{ barcode := "101200012345", isValid := false, warnings := [Warning.duplicate],
           data := none, timestamp := 1 }] := by decide
    rw [hitems] at he
    simp only [List.mem_singleton] at he
    subst he
    exact absurd hdup (by decide)
  · exact Reachable.scan "9999000123456" 0 _ (by simp) Reachable.init
  · intro h
    have hx := (h "999900012345").mp (by decide)
    obtain ⟨e, he, hdup, hb⟩ := hx
    have hitems : stTruncated.scannedItems =
        [{ barcode := "9999000123456", isValid := false, warnings := [Warning.invalidStructure],
           data := none, timestamp := 0 }] := by decide
    rw [hitems] at he
    simp only [List.mem_singleton] at he
    subst he
    simp at hb

/-- Claim C3 (amended): at every session state reachable by classify calls
with fresh timestamps, single-event deletions and clear-all, where every
scanned input's digit-stripped form has at most 12 digits, the seen set equals
the set of stored identifiers of ALL ScanEvents in the ledger, duplicate-warned
events included; in particular a deletion evicts an identifier exactly when
the removed event was the last ledger instance of that identifier counting
duplicate-warned events. -/
theorem claim3_seen_matches_ledger (ctx : ScanContext) (st : SessionState)
    (h : ReachableBounded ctx st) : SeenMatchesLedger st :=
  (reachableBounded_invariant ctx st h).1

/-- Witness for C3 (amended) at the session reached by one clean scan. -/
theorem claim3_witness :
    ("101200012345" ∈ ((processBarcode ctxEx "101200012345" 0
        { scannedItems := [], seen := [] }).2).seen) ↔
      ∃ e ∈ ((processBarcode ctxEx "101200012345" 0
        { scannedItems := [], seen := [] }).2).scannedItems, e.barcode = "101200012345" :=
  claim3_seen_matches_ledger ctxEx _
    (ReachableBounded.scan "101200012345" 0 _ (by simp) (by decide) ReachableBounded.init)
    "101200012345"

/-- Counterexample to C4 as stated: a ledger with exactly one ScanEvent
reports a scan speed of 0, not the unbounded marker. -/
theorem claim4_counterexample :
    scanSpeed [defaultEvent] = ScanSpeedValue.num 0 ∧
      ScanSpeedValue.num 0 ≠ ScanSpeedValue.unbounded := by
  constructor
  · rfl
  · intro h
    cases h

/-- Claim C4 (amended): the reported scan throughput equals
`round(totalScans / elapsedMinutes)` — elapsed between the oldest
(`scannedItems[length-1]`) and newest (`scannedItems[0]`) timestamps — when
the ledger has more than one event and the elapsed time is positive; it is the
unbounded marker when the ledger has more than one event and the elapsed time
is not positive; and it is 0 (not unbounded) when the ledger has at most one
event. -/
theorem claim4_scan_speed (items : List ScanEvent) :
    (items.length ≤ 1 → scanSpeed items = ScanSpeedValue.num 0) ∧
    (1 < items.length →
      (items.getLastD defaultEvent).timestamp < (items.headD defaultEvent).timestamp →
      scanSpeed items = ScanSpeedValue.num (round ((items.length : ℚ) /
        (((((items.headD defaultEvent).timestamp : ℤ) : ℚ) -
          (((items.getLastD defaultEvent).timestamp : ℤ) : ℚ)) / (1000 * 60))))) ∧
    (1 < items.length →
      (items.headD defaultEvent).timestamp ≤ (items.getLastD defaultEvent).timestamp →
      scanSpeed items = ScanSpeedValue.unbounded) := by
  unfold scanSpeed
  dsimp only
  refine ⟨?_, ?_, ?_⟩
  · intro h
    rw [if_neg (by omega)]
  · intro hl ho
    rw [if_pos hl]
    have ho' : ((items.getLastD defaultEvent).timestamp : ℤ) <
        ((items.headD defaultEvent).timestamp : ℤ) := by exact_mod_cast ho
    rw [if_pos ((duration_pos_iff _ _).mpr ho')]
    congr 1
    congr 1
    push_cast
    ring
  · intro hl ho
    rw [if_pos hl]
    have ho' : ((items.headD defaultEvent).timestamp : ℤ) ≤
        ((items.getLastD defaultEvent).timestamp : ℤ) := by exact_mod_cast ho
    rw [if_neg ?hneg]
    case hneg =>
      rw [duration_pos_iff]
      omega

/-- Witness for C4 (amended): two scans two minutes apart report a speed of
`round(2 / 2) = 1`; a single scan reports 0. -/
theorem claim4_witness :
    scanSpeed [evB, evA] = ScanSpeedValue.num 1 ∧ scanSpeed [evA] = ScanSpeedValue.num 0 := by
  constructor
  · have h := (claim4_scan_speed [evB, evA]).2.1 (by decide) (by decide)
    rw [h]
    norm_num [evA, evB, defaultEvent, round_eq]
  · exact (claim4_scan_speed [evA]).1 (by decide)

/-- Claim C5: for every raw input whose digit-stripped form has length
strictly between 0 and 12, normalization records `wasAutoCompleted = true` and
returns exactly `expectedPrefix ++ digits.padStart(12 - expectedPrefix.length, '0')`. -/
theorem claim5_autocompletion (lib : Nat) (rawBarcode : String)
    (h1 : 0 < (stripNonDigits rawBarcode).length)
    (h2 : (stripNonDigits rawBarcode).length < 12) :
    normalizeBarcode lib rawBarcode =
      { normalizedBarcode :=
          prefixFor lib ++ padStart (stripNonDigits rawBarcode)
            (12 - (prefixFor lib).length) '0',
        originalBarcode := stripNonDigits rawBarcode,
        wasAutoCompleted := true } := by
  unfold normalizeBarcode
  dsimp only
  have hn0 : (if (stripNonDigits rawBarcode).length ≥ 13 then
      strTake (stripNonDigits rawBarcode) 12 else stripNonDigits rawBarcode) =
      stripNonDigits rawBarcode := if_neg (by omega)
  rw [hn0, if_pos ⟨h2, h1⟩]

/-- Witness for C5: with library code 12 (expected prefix 1012), the digits 55
normalize to 101200000055 with `wasAutoCompleted = true`. -/
theorem claim5_witness :
    normalizeBarcode 12 "55" =
      { normalizedBarcode := "101200000055", originalBarcode := "55",
        wasAutoCompleted := true } := by
  have h := claim5_autocompletion 12 "55" (by decide) (by decide)
  exact h.trans (by decide)

/-- Claim C6: the ISBN predicate accepts a string exactly when its
digit-stripped form has exactly 13 digits, starts with 978 or 979, and its
13th digit equals `(10 - S mod 10) mod 10`, where `S` sums the first 12 digits
weighted 1 at even and 3 at odd 0-based positions. -/
theorem claim6_isbn_characterization (s : String) : isIsbn s = true ↔ isIsbnSpec s := by
  unfold isIsbn isIsbnSpec
  dsimp only
  rw [isbn_weighted_sum]
  by_cases hlen : (stripNonDigits s).length = 13
  · rw [if_neg (by simp [hlen])]
    by_cases hstart : (strStartsWith (stripNonDigits s) "978" ||
        strStartsWith (stripNonDigits s) "979") = true
    · rw [if_neg (by simp [hstart])]
      have hd := (Bool.or_eq_true _ _).mp hstart
      simp only [beq_iff_eq, hlen, true_and]
      constructor
      · intro h
        exact ⟨hd, h.symm⟩
      · intro h
        exact h.2.symm
    · have hstart' : (strStartsWith (stripNonDigits s) "978" ||
          strStartsWith (stripNonDigits s) "979") = false := by simpa using hstart
      rw [if_pos (by simp [hstart'])]
      simp only [Bool.or_eq_false_iff] at hstart'
      constructor
      · intro h
        exact absurd h (by simp)
      · rintro ⟨-, hd, -⟩
        rcases hd with h | h
        · rw [hstart'.1] at h
          exact absurd h (by simp)
        · rw [hstart'.2] at h
          exact absurd h (by simp)
  · rw [if_pos (by simpa using hlen)]
    constructor
    · intro h
      exact absurd h (by simp)
    · rintro ⟨h, -, -⟩
      exact absurd h hlen

/-- Claim C7: an input recognized as a valid ISBN leaves the session state
completely unchanged — no ScanEvent is appended and nothing is added to the
seen set — so a repeated ISBN scan is never classified as a duplicate. -/
theorem claim7_isbn_frame (ctx : ScanContext) (lib : Nat) (barcode : String) (ts : Nat)
    (st : SessionState) (hlib : ctx.selectedLibrary = some lib)
    (hraw : jsTrim barcode ≠ "") (hisbn : isIsbn (jsTrim barcode) = true) :
    processBarcode ctx barcode ts st = (Outcome.isbn, st) :=
  processBarcode_isbn ctx barcode ts st lib hlib hraw hisbn

/-- Witness for C7: the valid ISBN 9780134190440 scanned twice on a nonempty
session leaves it untouched both times and is never marked duplicate. -/
theorem claim7_witness :
    processBarcode ctxC1 "9780134190440" 5
        { scannedItems := [evA], seen := ["a"] } =
      (Outcome.isbn, { scannedItems := [evA], seen := ["a"] }) ∧
    processBarcode ctxC1 "9780134190440" 6
        { scannedItems := [evA], seen := ["a"] } =
      (Outcome.isbn, { scannedItems := [evA], seen := ["a"] }) := by
  constructor
  · exact claim7_isbn_frame ctxC1 12 "9780134190440" 5 _ rfl (by decide) (by decide)
  · exact claim7_isbn_frame ctxC1 12 "9780134190440" 6 _ rfl (by decide) (by decide)

/-- Claim C8: a catalog row is in the missing report exactly when it is
in-collection (`status 0`) and no non-duplicate scan event carries its
identifier (so a withdrawn never-scanned row is never reported missing), and
the headline valid/invalid counts partition the active-collection scans
deduplicated by identifier (every counted event resolves to an active record,
and the deduplicated identifiers are pairwise distinct). -/
theorem claim8_missing_and_headline_counts (kohaData : List KohaRow)
    (items : List ScanEvent) (r : KohaRow) :
    (r ∈ missingItemsReport kohaData items ↔
       r ∈ kohaData ∧ r.materyalStatusuKodu = "0" ∧
         ¬ ∃ e ∈ items, isDuplicateEvent e = false ∧ e.barcode = jsStringOfOpt r.barkod) ∧
    (r.materyalStatusuKodu ≠ "0" → r ∉ missingItemsReport kohaData items) ∧
    (summaryValid items + summaryInvalid items = (uniqueActiveScannedItems items).length) ∧
    (∀ e ∈ uniqueActiveScannedItems items,
       ∃ d, e.data = some d ∧ d.materyalStatusuKodu = "0") ∧
    ((uniqueActiveScannedItems items).map (fun e => e.barcode)).Nodup := by
  have hmemiff : ∀ x : String, (nonDuplicateScannedBarcodes items).contains x = true ↔
      ∃ e ∈ items, isDuplicateEvent e = false ∧ e.barcode = x := by
    intro x
    constructor
    · intro h
      have hx : x ∈ nonDuplicateScannedBarcodes items := List.elem_iff.mp h
      obtain ⟨e, he, heb⟩ := List.mem_map.mp hx
      have h2 := List.mem_filter.mp he
      exact ⟨e, h2.1, by simpa using h2.2, heb⟩
    · rintro ⟨e, he, hd, heb⟩
      have hx : x ∈ nonDuplicateScannedBarcodes items :=
        List.mem_map.mpr ⟨e, List.mem_filter.mpr ⟨he, by simp [hd]⟩, heb⟩
      exact List.elem_iff.mpr hx
  refine ⟨?_, ?_, summary_counts_sum items, uniqueActive_active items,
    uniqueActive_barcodes_nodup items⟩
  · unfold missingItemsReport
    rw [List.mem_filter]
    constructor
    · rintro ⟨hr, hc⟩
      rw [Bool.and_eq_true] at hc
      refine ⟨hr, by simpa using hc.1, ?_⟩
      intro hex
      have hcontains := (hmemiff (jsStringOfOpt r.barkod)).mpr hex
      rw [hcontains] at hc
      simpa using hc.2
    · rintro ⟨hr, hst, hno⟩
      refine ⟨hr, ?_⟩
      rw [Bool.and_eq_true]
      refine ⟨by simpa using hst, ?_⟩
      rw [Bool.not_eq_true']
      by_contra hc
      have hc' : (nonDuplicateScannedBarcodes items).contains (jsStringOfOpt r.barkod)
          = true := by simpa using hc
      exact hno ((hmemiff _).mp hc')
  · intro hst hmem
    unfold missingItemsReport at hmem
    have h2 := (List.mem_filter.mp hmem).2
    rw [Bool.and_eq_true] at h2
    exact hst (by simpa using h2.1)

/-- Witness for C8: with an empty ledger, the unscanned in-collection row is
reported missing while the unscanned withdrawn row is not. -/
theorem claim8_witness :
    rowM ∈ missingItemsReport [rowM, rowW] [] ∧
      rowW ∉ missingItemsReport [rowM, rowW] [] := by
  constructor
  · exact (claim8_missing_and_headline_counts [rowM, rowW] [] rowM).1.mpr
      ⟨by simp, rfl, by simp⟩
  · exact (claim8_missing_and_headline_counts [rowM, rowW] [] rowW).2.1 (by decide)

/-- Claim C9: the catalog load fails with `MissingColumn` when there are no
rows or no row carries the identifier column, and any failure leaves the
previous catalog state untouched; a successful load replaces the index
wholesale, keying every row by `String(barkod)`. -/
theorem claim9_catalog_load (json : List KohaRow) (st : CatalogState) :
    ((json = [] ∨ ∀ r ∈ json, r.barkod = none) →
       handleExcelUpload json st = (st, some LoadError.missingColumn)) ∧
    ((handleExcelUpload json st).2 = some LoadError.missingColumn →
       (handleExcelUpload json st).1 = st) ∧
    (∀ st', handleExcelUpload json st = (st', none) →
       st' = { kohaData := json,
               kohaDataMap := json.map (fun it => (jsStringOfOpt it.barkod, it)) }) := by
  refine ⟨?_, ?_, ?_⟩
  · rintro (h | h)
    · subst h; rfl
    · cases json with
      | nil => rfl
      | cons r t =>
          unfold handleExcelUpload
          dsimp only
          rw [h r (List.mem_cons_self r t)]
  · cases json with
    | nil => intro _; rfl
    | cons r t =>
        cases hb : r.barkod with
        | none =>
            unfold handleExcelUpload
            dsimp only
            rw [hb]
            intro _; rfl
        | some v =>
            unfold handleExcelUpload
            dsimp only
            rw [hb]
            intro h
            exact absurd h (by simp)
  · intro st' h
    cases json with
    | nil => exact absurd (congrArg Prod.snd h) (by simp [handleExcelUpload])
    | cons r t =>
        cases hb : r.barkod with
        | none =>
            unfold handleExcelUpload at h
            dsimp only at h
            rw [hb] at h
            exact absurd (congrArg Prod.snd h) (by simp)
        | some v =>
            unfold handleExcelUpload at h
            dsimp only at h
            rw [hb] at h
            have h1 := congrArg Prod.fst h
            simpa using h1.symm

/-- Witness for C9: loading an empty row set fails and keeps the previous
catalog; loading one well-formed row replaces the catalog with the singleton
index. -/
theorem claim9_witness :
    handleExcelUpload [] { kohaData := [rowA], kohaDataMap := [("101200012345", rowA)] } =
      ({ kohaData := [rowA], kohaDataMap := [("101200012345", rowA)] },
        some LoadError.missingColumn) ∧
    handleExcelUpload [rowA] { kohaData := [], kohaDataMap := [] } =
      ({ kohaData := [rowA], kohaDataMap := [("101200012345", rowA)] }, none) := by
  constructor
  · exact (claim9_catalog_load [] _).1 (Or.inl rfl)
  · decide

/-- Claim C10: a non-empty trimmed input with no digit characters (and no
catalog record under the empty key) is classified with the empty string as
its normalized identifier: while the empty string is unseen it appends an
event with identifier `""` carrying exactly the `deleted` warning (not
`invalidStructure`) and adds `""` to the seen set; once `""` is seen, every
further all-non-digit input is classified as a duplicate. -/
theorem claim10_nondigit_input (ctx : ScanContext) (lib : Nat) (barcode : String) (ts : Nat)
    (st : SessionState) (hlib : ctx.selectedLibrary = some lib)
    (hraw : jsTrim barcode ≠ "") (hdigits : stripNonDigits (jsTrim barcode) = "")
    (hkoha : mapGet ctx.kohaDataMap "" = none) :
    (st.seen.contains "" = false →
       processBarcode ctx barcode ts st =
         (Outcome.error [Warning.deleted],
          { scannedItems :=
              { barcode := "", isValid := false, warnings := [Warning.deleted],
                data := none, timestamp := ts } :: st.scannedItems,
            seen := "" :: st.seen })) ∧
    (st.seen.contains "" = true →
       processBarcode ctx barcode ts st =
         (Outcome.error [Warning.duplicate],
          { scannedItems :=
              { barcode := "", isValid := false, warnings := [Warning.duplicate],
                data := dupEventData ctx.kohaDataMap st.scannedItems "", timestamp := ts }
                :: st.scannedItems,
            seen := st.seen })) := by
  have hisbn : isIsbn (jsTrim barcode) = false :=
    isIsbn_eq_false_of_length _ (by rw [hdigits]; decide)
  have hnorm := normalizeBarcode_empty_digits lib (jsTrim barcode) hdigits
  constructor
  · intro hs
    have h := processBarcode_catalog ctx barcode ts st lib hlib hraw hisbn
      (by rw [hnorm]; exact hs) (by rw [hnorm]; intro hc; exact absurd hc.1 (by decide))
    rw [h, hnorm]
    simp [catalogWarnings, hkoha]
  · intro hs
    have h := processBarcode_dup ctx barcode ts st lib hlib hraw hisbn (by rw [hnorm]; exact hs)
    rw [h, hnorm]

/-- Witness for C10: scanning `abc` in a fresh session appends the
`deleted`-warned event with the empty identifier; scanning `de` afterwards is
classified as a duplicate. -/
theorem claim10_witness :
    processBarcode ctxEx "abc" 0 { scannedItems := [], seen := [] } =
      (Outcome.error [Warning.deleted],
       { scannedItems := [{ barcode := "", isValid := false, warnings := [Warning.deleted],
                            data := none, timestamp := 0 }],
         seen := [""] }) ∧
    (processBarcode ctxEx "de" 1
        { scannedItems := [{ barcode := "", isValid := false, warnings := [Warning.deleted],
                             data := none, timestamp := 0 }],
          seen := [""] }).1 = Outcome.error [Warning.duplicate] := by
  constructor
  · have h := (claim10_nondigit_input ctxEx 12 "abc" 0 { scannedItems := [], seen := [] }
      rfl (by decide) (by decide) rfl).1 (by decide)
    exact h.trans (by decide)
  · have h := (claim10_nondigit_input ctxEx 12 "de" 1
      { scannedItems := [{ barcode := "", isValid := false, warnings := [Warning.deleted],
                           data := none, timestamp := 0 }],
        seen := [""] } rfl (by decide) (by decide) rfl).2 (by decide)
    rw [h]

end KohaSayim
